import Mathlib

/-!
Verification of the conversational tool-use orchestration loop of the
pdf-tree repository (src/agent/agent.ts, message.ts, types.ts).

The TypeScript source is shallowly embedded: the streaming completion
service is modelled as a script of per-turn chunk lists, tool capabilities
as functions into an outcome type, the JS Map used for tool-call buffers
as an insertion-ordered association list, and the zod validation performed
by createMessage as an Except value (a thrown ZodError is an .error).
-/

/-- JSON values, modelling the values produced by the host JSON.parse and
consumed by JSON.stringify in agent.ts. -/
inductive Json where
  | null : Json
  | bool : Bool → Json
  | num : Int → Json
  | str : String → Json
  | arr : List Json → Json
  | obj : List (String × Json) → Json

/-- Minimal string escaping used by the model of JSON.stringify (quote and
backslash; control characters are not modelled, no claim depends on them). -/
def jsonEscape (s : String) : String :=
  String.join (s.toList.map (fun c =>
    if c = '"' then "\\\"" else if c = '\\' then "\\\\" else String.singleton c))

mutual

/-- Model of the host JSON.stringify on Json values: object fields are kept
in insertion order, exactly as the JS builtin does. -/
def Json.stringify : Json → String
  | Json.null => "null"
  | Json.bool true => "true"
  | Json.bool false => "false"
  | Json.num n => toString n
  | Json.str s => "\"" ++ jsonEscape s ++ "\""
  | Json.arr xs => "[" ++ Json.stringifyArr xs ++ "]"
  | Json.obj fs => "\x7b" ++ Json.stringifyObj fs ++ "\x7d"

/-- Comma-separated serialization of an array's elements. -/
def Json.stringifyArr : List Json → String
  | [] => ""
  | [x] => Json.stringify x
  | x :: xs => Json.stringify x ++ "," ++ Json.stringifyArr xs

/-- Comma-separated serialization of an object's fields, insertion order. -/
def Json.stringifyObj : List (String × Json) → String
  | [] => ""
  | [(k, v)] => "\"" ++ jsonEscape k ++ "\":" ++ Json.stringify v
  | (k, v) :: fs =>
      "\"" ++ jsonEscape k ++ "\":" ++ Json.stringify v ++ "," ++ Json.stringifyObj fs

end

/-- Roles of conversation messages (message.ts MessageSchema.role). -/
inductive Role where
  | user : Role
  | assistant : Role
  | system : Role
  | tool : Role
deriving DecidableEq, Repr

/-- Finish reasons accepted by FinishReasonSchema (types.ts line 3):
z.enum(["stop", "tool_calls", "length"]). -/
inductive FinishReason where
  | stop : FinishReason
  | tool_calls : FinishReason
  | length : FinishReason
deriving DecidableEq, Repr

/-- A finalized tool call (types.ts ToolCallSchema): service-assigned id,
tool name, and the parsed argument mapping. -/
structure ToolCall where
  id : String
  name : String
  arguments : Json

/-- A conversation message (message.ts MessageSchema). -/
structure Message where
  id : String
  role : Role
  content : String
  error : Option String := none
  model : Option String := none
  finishReason : Option FinishReason := none
  toolCalls : Option (List ToolCall) := none
  toolCallId : Option String := none

/-- Model of FinishReasonSchema.optional().parse: absent is accepted, the
three enum members are accepted, anything else raises a ZodError (modelled
as .error, matching zod's invalid-enum failure). -/
def parseFinish : Option String → Except String (Option FinishReason)
  | none => Except.ok none
  | some "stop" => Except.ok (some FinishReason.stop)
  | some "tool_calls" => Except.ok (some FinishReason.tool_calls)
  | some "length" => Except.ok (some FinishReason.length)
  | some s => Except.error ("Invalid enum value: " ++ s)

/-- Parameters accepted by createMessage (message.ts lines 17-25). The raw
finish string is kept as supplied by the caller, since agent.ts line 246
casts an arbitrary runtime string into the field. -/
structure CreateParams where
  role : Role
  content : String
  error : Option String := none
  model : Option String := none
  finishRaw : Option String := none
  toolCalls : Option (List ToolCall) := none
  toolCallId : Option String := none

/-- Model of createMessage (message.ts lines 17-30): MessageSchema.parse of
the params plus a timestamp id; the only validation that can fail on the
call sites in agent.ts is the finish-reason enum. Date.now() is modelled by
the tick counter supplied as now. -/
def createMessage (now : Nat) (p : CreateParams) : Except String Message :=
  match parseFinish p.finishRaw with
  | Except.error e => Except.error e
  | Except.ok fr =>
      Except.ok
        { id := "msg-" ++ toString now
          role := p.role
          content := p.content
          error := p.error
          model := p.model
          finishReason := fr
          toolCalls := p.toolCalls
          toolCallId := p.toolCallId }

/-- Observable behavior of a capability's asynchronous execute operation on
a given argument mapping: it settles with a result string, rejects with an
error whose rendered message is given, or fails to settle within the
TOOL_TIMEOUT_MS deadline. -/
inductive ExecOutcome where
  | ok : String → ExecOutcome
  | throwsErr : String → ExecOutcome
  | hangs : ExecOutcome

/-- A registered tool capability (types.ts Tool): the schema fields other
than the name do not influence the orchestrator, so only the name and the
execute behavior are carried. -/
structure ToolCap where
  name : String
  execute : Json → ExecOutcome

/-- Fixed tool deadline (agent.ts line 7). -/
def TOOL_TIMEOUT_MS : Nat := 30000

/-- Fixed doom-loop window (agent.ts line 8). -/
def DOOM_LOOP_THRESHOLD : Nat := 3

/-- Lookup in this.toolMap: the Map is built from the tool list keyed by
name, a later duplicate name overwriting an earlier one, hence the scan
from the end of the list. -/
def lookupTool (tools : List ToolCap) (n : String) : Option ToolCap :=
  tools.reverse.find? (fun t => t.name == n)

/-- Model of Agent.executeTool (agent.ts lines 43-60): unknown names give a
structured error, a rejection is caught and rendered with the tool name,
and an execute that outlives TOOL_TIMEOUT_MS loses the Promise.race to the
timeout rejection, which is caught the same way. The model is a total
function: the source never lets an exception escape. -/
def executeTool (tools : List ToolCap) (tc : ToolCall) : String :=
  match lookupTool tools tc.name with
  | none => Json.stringify (Json.obj [("error", Json.str ("Unknown tool: " ++ tc.name))])
  | some t =>
      match t.execute tc.arguments with
      | ExecOutcome.ok r => r
      | ExecOutcome.throwsErr m =>
          Json.stringify (Json.obj [("error", Json.str m), ("tool", Json.str tc.name)])
      | ExecOutcome.hangs =>
          Json.stringify
            (Json.obj [("error", Json.str "Tool execution timeout"), ("tool", Json.str tc.name)])

/-- Kinds of events yielded by streamResponse (agent.ts lines 106-110). -/
inductive EventType where
  | text : EventType
  | tool_call : EventType
  | tool_result : EventType
deriving DecidableEq, Repr

/-- An event yielded by streamResponse: its discriminant, the displayed
content fragment, and for tool_call / tool_result events the Message that
was just appended to the working history. -/
structure AgentEvent where
  etype : EventType
  content : String
  message : Option Message := none

/-- One partial tool-call fragment of a stream chunk
(choice.delta.tool_calls[i]): position index, and the optional id, name and
argument fragments. -/
structure ToolCallDelta where
  index : Nat
  idDelta : Option String := none
  nameDelta : Option String := none
  argsDelta : Option String := none

/-- One chunk of the completion stream, reduced to chunk.choices[0]: an
optional text fragment, the partial tool-call fragments, and an optional
finish reason. A chunk with no choice is the all-empty chunk. -/
structure StreamChunk where
  contentDelta : Option String := none
  toolDeltas : List ToolCallDelta := []
  finishDelta : Option String := none

/-- An in-progress tool-call buffer (agent.ts lines 124-125, 138-142). -/
structure ToolCallBuffer where
  id : String := ""
  name : String := ""
  args : String := ""
deriving DecidableEq, Repr

/-- Lookup in the JS Map of buffers, modelled as an association list kept
in key insertion order. -/
def mapGet (m : List (Nat × ToolCallBuffer)) (k : Nat) : Option ToolCallBuffer :=
  match m.find? (fun p => p.1 == k) with
  | none => none
  | some p => some p.2

/-- Map.set: an existing key keeps its position in insertion order, a new
key is appended at the end, exactly as the JS Map iterates later. -/
def mapSet (m : List (Nat × ToolCallBuffer)) (k : Nat) (v : ToolCallBuffer) :
    List (Nat × ToolCallBuffer) :=
  match m with
  | [] => [(k, v)]
  | p :: rest => if p.1 = k then (k, v) :: rest else p :: mapSet rest k v

/-- The per-fragment buffer update (agent.ts lines 143-145): a non-empty id
fragment overwrites the id, a non-empty name fragment overwrites the name,
a non-empty argument fragment is appended to the argument string (the JS
truthiness checks skip empty strings). -/
def updateBuffer (b : ToolCallBuffer) (tc : ToolCallDelta) : ToolCallBuffer :=
  let b1 := match tc.idDelta with
    | some s => if s = "" then b else { b with id := s }
    | none => b
  let b2 := match tc.nameDelta with
    | some s => if s = "" then b1 else { b1 with name := s }
    | none => b1
  match tc.argsDelta with
  | some s => if s = "" then b2 else { b2 with args := b2.args ++ s }
  | none => b2

/-- Processing of one tool-call fragment (agent.ts lines 137-147): fetch or
default the buffer at the fragment's index, update it, store it back. -/
def applyDelta (m : List (Nat × ToolCallBuffer)) (tc : ToolCallDelta) :
    List (Nat × ToolCallBuffer) :=
  mapSet m tc.index (updateBuffer ((mapGet m tc.index).getD ⟨"", "", ""⟩) tc)

/-- Accumulated state of one turn's stream (agent.ts lines 122-125), plus
the text events already yielded while streaming. -/
structure StreamAcc where
  content : String := ""
  finish : String := ""
  buffers : List (Nat × ToolCallBuffer) := []
  events : List AgentEvent := []

/-- Processing of one stream chunk (agent.ts lines 127-153): a non-empty
content delta is appended and yielded as a text event, tool-call fragments
update the buffers, a non-empty finish reason overwrites the stored one. -/
def consumeChunk (acc : StreamAcc) (c : StreamChunk) : StreamAcc :=
  let acc1 := match c.contentDelta with
    | some s =>
        if s = "" then acc
        else { acc with
                content := acc.content ++ s
                events := acc.events ++ [({ etype := EventType.text, content := s } : AgentEvent)] }
    | none => acc
  let acc2 := { acc1 with buffers := c.toolDeltas.foldl applyDelta acc1.buffers }
  match c.finishDelta with
  | some f => if f = "" then acc2 else { acc2 with finish := f }
  | none => acc2

/-- Consuming one turn's whole delta stream. -/
def consumeStream (chunks : List StreamChunk) : StreamAcc :=
  chunks.foldl consumeChunk {}

/-- Finalization of one buffer into a ToolCall (agent.ts lines 157-169):
the argument string is parsed; on failure the call is kept, with the
arguments replaced by an object holding the raw string under _parseError. -/
def finalizeOne (parse : String → Option Json) (b : ToolCallBuffer) : ToolCall :=
  { id := b.id
    name := b.name
    arguments :=
      match parse b.args with
      | some j => j
      | none => Json.obj [("_parseError", Json.str b.args)] }

/-- Draining the buffer map into the finalized ToolCall list, in the map's
iteration order. -/
def finalizeBuffers (parse : String → Option Json) (bs : List (Nat × ToolCallBuffer)) :
    List ToolCall :=
  bs.map (fun p => finalizeOne parse p.2)

/-- A loop-guard signature: tool name and JSON.stringify of the parsed
arguments (agent.ts line 173). -/
def Sig : Type := String × String

/-- Signature of a finalized tool call. -/
def sigOf (tc : ToolCall) : Sig :=
  (tc.name, Json.stringify tc.arguments)

/-- One loop-guard step (agent.ts lines 174-180): push the new signature,
then test whether the trailing window of DOOM_LOOP_THRESHOLD entries is
full and every entry equals the new signature. -/
def doomStep (recent : List Sig) (sig : Sig) : List Sig × Bool :=
  let r := recent ++ [sig]
  let lastN := r.drop (r.length - DOOM_LOOP_THRESHOLD)
  (r, lastN.length == DOOM_LOOP_THRESHOLD &&
        lastN.all (fun c => c.1 == sig.1 && c.2 == sig.2))

/-- The doom-loop detection pass over a turn's finalized calls (agent.ts
lines 172-202): calls are logged in order; on the first declared loop the
scan stops (the remaining calls are never logged, the turn is aborted). -/
def doomScanCalls (recent : List Sig) : List ToolCall → List Sig × Bool
  | [] => (recent, false)
  | tc :: rest =>
      let step := doomStep recent (tc.name, Json.stringify tc.arguments)
      if step.2 then (step.1, true) else doomScanCalls step.1 rest

/-- A message as sent to the completion service (buildMessages output,
agent.ts lines 62-98). -/
inductive ChatParam where
  | system : String → ChatParam
  | toolResult : String → String → ChatParam
  | assistantCalls : Option String → List (String × String × String) → ChatParam
  | basic : Role → String → ChatParam

/-- JS truthiness of an optional string: present and non-empty. -/
def truthyOpt : Option String → Bool
  | none => false
  | some s => !(s == "")

/-- Translation of one history Message into a service message (agent.ts
lines 70-95): a tool message with a truthy toolCallId becomes a tool param,
an assistant message with a non-empty toolCalls list becomes an assistant
param with serialized calls and content turned to null when empty, and
everything else is passed through with the role cast unchecked. -/
def toParam (m : Message) : ChatParam :=
  if m.role = Role.tool ∧ truthyOpt m.toolCallId then
    ChatParam.toolResult (m.toolCallId.getD "") m.content
  else if m.role = Role.assistant ∧ (m.toolCalls.getD []).length > 0 then
    ChatParam.assistantCalls (if m.content = "" then none else some m.content)
      ((m.toolCalls.getD []).map (fun tc => (tc.id, tc.name, Json.stringify tc.arguments)))
  else ChatParam.basic m.role m.content

/-- Model of Agent.buildMessages (agent.ts lines 62-98): the system prompt
first, then the translated history. -/
def buildMessages (sys : String) (history : List Message) : List ChatParam :=
  ChatParam.system sys :: history.map toParam

/-- A completion request as issued to the service: its message list and the
attached tool schemas (by name), none when the tools field is omitted. -/
structure Request where
  messages : List ChatParam
  tools : Option (List String)

/-- Model of Agent.getOpenAITools (agent.ts lines 31-41), reduced to the
names of the attached schemas; undefined when no tools are registered. -/
def getOpenAITools (tools : List ToolCap) : Option (List String) :=
  if tools.length = 0 then none else some (tools.map (fun t => t.name))

/-- Construction-time configuration of an Agent plus the model of the host
JSON.parse builtin (kept abstract: theorems hold for every parser). -/
structure AgentEnv where
  model : String
  systemPrompt : String
  tools : List ToolCap
  parseJson : String → Option Json

/-- How a modelled streamResponse invocation ended: a plain return, the
doom-loop abort return, a thrown ZodError from createMessage, or the
service script running out while another request was pending (an artifact
of scripting the service with a finite list). -/
inductive TermReason where
  | done : TermReason
  | loopAborted : TermReason
  | zodError : String → TermReason
  | outOfScript : TermReason
deriving DecidableEq, Repr

/-- The observable outcome of a modelled streamResponse invocation. -/
structure RunResult where
  events : List AgentEvent
  requests : List Request
  working : List Message
  caller : List Message
  termination : TermReason

/-- Mutable state of one streamResponse invocation: the Date.now tick, the
caller-supplied history array, the private working copy (agent.ts line
111), and the loop-guard log (line 112). -/
structure AgentState where
  t : Nat
  caller : List Message
  working : List Message
  recent : List Sig

/-- Sequential execution of a turn's finalized calls (agent.ts lines
220-236): execute, build the tool message, yield a tool_result event, push
the message, continue with the next call. An .error propagates a thrown
ZodError (unreachable here, since tool messages carry no finish reason). -/
def dispatchCalls (tools : List ToolCap) :
    Nat → List Message → List ToolCall → Except String (Nat × List Message × List AgentEvent)
  | t, wh, [] => Except.ok (t, wh, [])
  | t, wh, tc :: rest =>
      let result := executeTool tools tc
      match createMessage t { role := Role.tool, content := result, toolCallId := some tc.id } with
      | Except.error e => Except.error e
      | Except.ok m =>
          match dispatchCalls tools (t + 1) (wh ++ [m]) rest with
          | Except.error e => Except.error e
          | Except.ok (t2, wh2, evs) =>
              Except.ok (t2, wh2,
                ({ etype := EventType.tool_result
                   content := "[" ++ tc.name ++ " result received]"
                   message := some m } : AgentEvent) :: evs)

/-- The instructive nudge appended on loop abort (agent.ts line 185). -/
def nudgeText : String :=
  "You seem to be stuck in a loop. Please provide your answer now based on what you've found so far."

/-- The text event announcing loop detection (agent.ts line 181). -/
def announceEvent : AgentEvent :=
  { etype := EventType.text
    content := "\n[Detected repeated tool calls - generating response...]\n" }

/-- Streaming of the forced final completion (agent.ts lines 194-199): only
content deltas are surfaced, each as a text event; tool-call fragments and
finish reasons in that stream are ignored. -/
def finalTextEvents (chunks : List StreamChunk) : List AgentEvent :=
  chunks.filterMap (fun c =>
    match c.contentDelta with
    | some s => if s = "" then none else some { etype := EventType.text, content := s }
    | none => none)

/-- The tool_call event content line (agent.ts line 214). -/
def callingLine (tcs : List ToolCall) : String :=
  "[Calling " ++ String.intercalate ", " (tcs.map (fun tc => tc.name)) ++ "...]"

/-- The main loop of Agent.streamResponse (agent.ts lines 114-259), driven
by the service script: each iteration issues one completion request and
consumes the next scripted turn. The doom-loop abort consumes one further
scripted turn for its forced final completion. -/
def runLoop (env : AgentEnv) : AgentState → List (List StreamChunk) → RunResult
  | st, [] =>
      { events := [], requests := [], working := st.working, caller := st.caller,
        termination := TermReason.outOfScript }
  | st, chunks :: rest =>
      let req : Request :=
        { messages := buildMessages env.systemPrompt st.working
          tools := getOpenAITools env.tools }
      let acc := consumeStream chunks
      if acc.finish = "tool_calls" then
        let tcs := finalizeBuffers env.parseJson acc.buffers
        let scan := doomScanCalls st.recent tcs
        if scan.2 then
          let abortReq : Request :=
            { messages := buildMessages env.systemPrompt st.working
                ++ [ChatParam.basic Role.user nudgeText]
              tools := none }
          match rest with
          | [] =>
              { events := acc.events ++ [announceEvent], requests := [req, abortReq],
                working := st.working, caller := st.caller,
                termination := TermReason.outOfScript }
          | fchunks :: _ =>
              { events := acc.events ++ announceEvent :: finalTextEvents fchunks,
                requests := [req, abortReq], working := st.working, caller := st.caller,
                termination := TermReason.loopAborted }
        else
          match createMessage st.t
              { role := Role.assistant, content := acc.content, model := some env.model,
                finishRaw := some "tool_calls", toolCalls := some tcs } with
          | Except.error e =>
              { events := acc.events, requests := [req], working := st.working,
                caller := st.caller, termination := TermReason.zodError e }
          | Except.ok tcMsg =>
              let tcEvent : AgentEvent :=
                { etype := EventType.tool_call, content := callingLine tcs,
                  message := some tcMsg }
              match dispatchCalls env.tools (st.t + 1) (st.working ++ [tcMsg]) tcs with
              | Except.error e =>
                  { events := acc.events ++ [tcEvent], requests := [req],
                    working := st.working ++ [tcMsg], caller := st.caller,
                    termination := TermReason.zodError e }
              | Except.ok (t2, wh2, devs) =>
                  let r := runLoop env { t := t2, caller := st.caller, working := wh2,
                                         recent := scan.1 } rest
                  { events := acc.events ++ tcEvent :: devs ++ r.events,
                    requests := req :: r.requests, working := r.working,
                    caller := r.caller, termination := r.termination }
      else
        match createMessage st.t
            { role := Role.assistant, content := acc.content, model := some env.model,
              finishRaw := some acc.finish } with
        | Except.error e =>
            { events := acc.events, requests := [req], working := st.working,
              caller := st.caller, termination := TermReason.zodError e }
        | Except.ok m =>
            if acc.finish = "stop" then
              { events := acc.events, requests := [req], working := st.working ++ [m],
                caller := st.caller, termination := TermReason.done }
            else if acc.finish = "length" then
              let r := runLoop env { t := st.t + 1, caller := st.caller,
                                     working := st.working ++ [m], recent := st.recent } rest
              { events := acc.events ++ r.events, requests := req :: r.requests,
                working := r.working, caller := r.caller, termination := r.termination }
            else
              { events := acc.events, requests := [req], working := st.working ++ [m],
                caller := st.caller, termination := TermReason.done }

/-- Model of Agent.streamResponse (agent.ts lines 104-260): the working
history starts as a copy of the caller-supplied history, the loop-guard log
starts empty, and the loop runs against the service script. -/
def streamResponse (env : AgentEnv) (history : List Message)
    (script : List (List StreamChunk)) : RunResult :=
  runLoop env { t := 0, caller := history, working := history, recent := [] } script

/-- The tool message created for one executed call: the shape produced by
createMessage inside the dispatch loop. -/
def toolMsg (tools : List ToolCap) (t : Nat) (tc : ToolCall) : Message :=
  { id := "msg-" ++ toString t, role := Role.tool, content := executeTool tools tc,
    toolCallId := some tc.id }

/-- The tool messages appended by the dispatch loop, in call order. -/
def toolMsgs (tools : List ToolCap) : Nat → List ToolCall → List Message
  | _, [] => []
  | t, tc :: rest => toolMsg tools t tc :: toolMsgs tools (t + 1) rest

/-- The tool_result events yielded by the dispatch loop, in call order. -/
def toolEvents (tools : List ToolCap) : Nat → List ToolCall → List AgentEvent
  | _, [] => []
  | t, tc :: rest =>
      ({ etype := EventType.tool_result
         content := "[" ++ tc.name ++ " result received]"
         message := some (toolMsg tools t tc) } : AgentEvent) :: toolEvents tools (t + 1) rest

/-- The assistant message shape produced by createMessage at the end of a
turn, with a validated finish reason. -/
def assistantMsg (t : Nat) (model content : String) (fr : FinishReason)
    (tcs : Option (List ToolCall)) : Message :=
  { id := "msg-" ++ toString t, role := Role.assistant, content := content,
    model := some model, finishReason := some fr, toolCalls := tcs }


/-- Modelled from the spec: "each buffer accumulates an identifier (first
non-empty value wins)" — the first non-empty fragment of a sequence, empty
when there is none. Used only to compare the spec's wording against the
source's accumulation. -/
def specFirstNonEmpty : List (Option String) → String
  | [] => ""
  | some s :: rest => if s = "" then specFirstNonEmpty rest else s
  | none :: rest => specFirstNonEmpty rest

/-- The last non-empty string of a list, empty when there is none. -/
def lastNonEmpty (l : List String) : String :=
  ((l.filter (fun s => !(s == ""))).getLast?).getD ""

/-- First-occurrence order of a list of indices, continuing from an
accumulator of indices already seen (in their own first-occurrence order). -/
def firstOccAcc (acc : List Nat) (l : List Nat) : List Nat :=
  l.foldl (fun a i => if i ∈ a then a else a ++ [i]) acc

/-- Insertion into a key-sorted buffer list. -/
def insertByKey (p : Nat × ToolCallBuffer) :
    List (Nat × ToolCallBuffer) → List (Nat × ToolCallBuffer)
  | [] => [p]
  | q :: rest => if p.1 ≤ q.1 then p :: q :: rest else q :: insertByKey p rest

/-- Insertion sort of a buffer list by key. -/
def sortByKey : List (Nat × ToolCallBuffer) → List (Nat × ToolCallBuffer)
  | [] => []
  | p :: rest => insertByKey p (sortByKey rest)

/-- Modelled from the spec: "each buffer is drained in position-index order
into a ToolCall" — draining the buffers sorted by ascending position index.
Used only to compare the spec's wording against the source's drain order. -/
def finalizeBuffersAscending (parse : String → Option Json)
    (bs : List (Nat × ToolCallBuffer)) : List ToolCall :=
  finalizeBuffers parse (sortByKey bs)

/-- A JSON parser that rejects every input, a legitimate instance of the
abstract JSON.parse parameter, used for concrete runs below. -/
def noParse : String → Option Json := fun _ => none

/-- A capability whose execute rejects. -/
def throwToolW : ToolCap := { name := "boom", execute := fun _ => ExecOutcome.throwsErr "kaput" }

/-- A capability whose execute never settles within the deadline. -/
def hangToolW : ToolCap := { name := "slow", execute := fun _ => ExecOutcome.hangs }

/-- A concrete agent configuration with no registered tools. -/
def envW : AgentEnv := { model := "m", systemPrompt := "sys", tools := [], parseJson := noParse }

/-- The initial per-invocation state over an empty caller history. -/
def stW : AgentState := { t := 0, caller := [], working := [], recent := [] }

/-- A tool-call fragment carrying an id and a name for a given index. -/
def tdelW (i : Nat) (nm : String) : ToolCallDelta :=
  { index := i, idDelta := some ("id" ++ toString i), nameDelta := some nm }

/-- A turn requesting three identical tool calls, then finishing with
tool_calls. -/
def loopTurnW : List StreamChunk :=
  [{ toolDeltas := [tdelW 0 "t", tdelW 1 "t", tdelW 2 "t"], finishDelta := some "tool_calls" }]

/-- A final turn streaming only text. -/
def finalTurnW : List StreamChunk := [{ contentDelta := some "ok" }]

/-- A turn requesting one tool call. -/
def oneCallTurnW : List StreamChunk :=
  [{ toolDeltas := [tdelW 0 "t"], finishDelta := some "tool_calls" }]

/-- A turn finishing with stop after some text. -/
def stopTurnW : List StreamChunk :=
  [{ contentDelta := some "done", finishDelta := some "stop" }]

/-- A turn whose finish reason is outside the recognized enum. -/
def unknownTurnW : List StreamChunk := [{ finishDelta := some "content_filter" }]

/-- Two fragments for the same index carrying two different non-empty ids. -/
def c3DeltasW : List ToolCallDelta :=
  [{ index := 0, idDelta := some "a" }, { index := 0, idDelta := some "b" }]

/-- A turn whose tool-call fragments arrive with indices out of order:
index 1 first, then index 0. -/
def c4ChunksW : List StreamChunk :=
  [{ toolDeltas := [tdelW 1 "b", tdelW 0 "a"], finishDelta := some "tool_calls" }]

/-- A call naming a tool absent from every registry below. -/
def tcGhostW : ToolCall := { id := "i2", name := "ghost", arguments := Json.null }

/-- A call naming the rejecting capability. -/
def tcBoomW : ToolCall := { id := "i1", name := "boom", arguments := Json.null }

/-- A buffer whose accumulated argument string is not parseable. -/
def bufW : ToolCallBuffer := { id := "a", name := "t", args := "notjson" }


lemma parseFinish_some_tool_calls :
    parseFinish (some "tool_calls") = Except.ok (some FinishReason.tool_calls) := rfl

lemma parseFinish_some_stop :
    parseFinish (some "stop") = Except.ok (some FinishReason.stop) := rfl

lemma parseFinish_some_length :
    parseFinish (some "length") = Except.ok (some FinishReason.length) := rfl

lemma parseFinish_none : parseFinish none = Except.ok none := rfl

lemma parseFinish_unknown (f : String) (h1 : f ≠ "stop") (h2 : f ≠ "tool_calls")
    (h3 : f ≠ "length") :
    parseFinish (some f) = Except.error ("Invalid enum value: " ++ f) := by
  unfold parseFinish
  split <;> simp_all

lemma createMessage_toolRole (t : Nat) (content tcid : String) :
    createMessage t { role := Role.tool, content := content, toolCallId := some tcid } =
      Except.ok { id := "msg-" ++ toString t, role := Role.tool, content := content,
                  toolCallId := some tcid } := rfl

lemma toolMsgs_length (tools : List ToolCap) :
    ∀ (tcs : List ToolCall) (t : Nat), (toolMsgs tools t tcs).length = tcs.length := by
  intro tcs
  induction tcs with
  | nil => intro t; rfl
  | cons tc rest ih => intro t; simp [toolMsgs, ih]

lemma toolEvents_length (tools : List ToolCap) :
    ∀ (tcs : List ToolCall) (t : Nat), (toolEvents tools t tcs).length = tcs.length := by
  intro tcs
  induction tcs with
  | nil => intro t; rfl
  | cons tc rest ih => intro t; simp [toolEvents, ih]

lemma toolEvents_types (tools : List ToolCap) :
    ∀ (tcs : List ToolCall) (t : Nat) (e : AgentEvent), e ∈ toolEvents tools t tcs →
      e.etype = EventType.tool_result := by
  intro tcs
  induction tcs with
  | nil => intro t e h; simp [toolEvents] at h
  | cons tc rest ih =>
      intro t e h
      simp only [toolEvents, List.mem_cons] at h
      rcases h with h | h
      · subst h; rfl
      · exact ih (t + 1) e h

lemma dispatchCalls_eq (tools : List ToolCap) :
    ∀ (tcs : List ToolCall) (t : Nat) (wh : List Message),
      dispatchCalls tools t wh tcs =
        Except.ok (t + tcs.length, wh ++ toolMsgs tools t tcs, toolEvents tools t tcs) := by
  intro tcs
  induction tcs with
  | nil => intro t wh; simp [dispatchCalls, toolMsgs, toolEvents]
  | cons tc rest ih =>
      intro t wh
      simp only [dispatchCalls, createMessage_toolRole]
      rw [ih]
      simp only [toolMsgs, toolEvents, toolMsg, List.append_assoc, List.singleton_append,
        List.length_cons, Except.ok.injEq, Prod.mk.injEq]
      exact ⟨by omega, trivial⟩

lemma consumeChunk_events (acc : StreamAcc) (c : StreamChunk) :
    ∃ suf, (consumeChunk acc c).events = acc.events ++ suf ∧
      ∀ e ∈ suf, e.etype = EventType.text := by
  unfold consumeChunk
  rcases hc : c.contentDelta with _ | s
  · rcases hf : c.finishDelta with _ | f
    · exact ⟨[], by simp, by simp⟩
    · by_cases hf0 : f = ""
      · exact ⟨[], by simp [hf0], by simp⟩
      · exact ⟨[], by simp [hf0], by simp⟩
  · by_cases hs : s = ""
    · rcases hf : c.finishDelta with _ | f
      · exact ⟨[], by simp [hs], by simp⟩
      · by_cases hf0 : f = ""
        · exact ⟨[], by simp [hs, hf0], by simp⟩
        · exact ⟨[], by simp [hs, hf0], by simp⟩
    · refine ⟨[({ etype := EventType.text, content := s } : AgentEvent)], ?_, ?_⟩
      · rcases hf : c.finishDelta with _ | f
        · simp [hs]
        · by_cases hf0 : f = ""
          · simp [hs, hf0]
          · simp [hs, hf0]
      · intro e he
        simp at he
        subst he
        rfl

lemma foldl_consumeChunk_events (chunks : List StreamChunk) :
    ∀ (acc : StreamAcc),
      ∃ suf, (chunks.foldl consumeChunk acc).events = acc.events ++ suf ∧
        ∀ e ∈ suf, e.etype = EventType.text := by
  induction chunks with
  | nil => intro acc; exact ⟨[], by simp, by simp⟩
  | cons c cs ih =>
      intro acc
      obtain ⟨s1, h1, ht1⟩ := consumeChunk_events acc c
      obtain ⟨s2, h2, ht2⟩ := ih (consumeChunk acc c)
      refine ⟨s1 ++ s2, ?_, ?_⟩
      · simp [List.foldl_cons, h2, h1]
      · intro e he
        rcases List.mem_append.mp he with h | h
        · exact ht1 e h
        · exact ht2 e h

lemma consumeStream_events_text (chunks : List StreamChunk) :
    ∀ e ∈ (consumeStream chunks).events, e.etype = EventType.text := by
  obtain ⟨suf, h, ht⟩ := foldl_consumeChunk_events chunks {}
  intro e he
  simp only [show ({} : StreamAcc).events = [] from rfl, List.nil_append] at h
  rw [consumeStream, h] at he
  exact ht e he

lemma finalTextEvents_text (chunks : List StreamChunk) :
    ∀ e ∈ finalTextEvents chunks, e.etype = EventType.text := by
  intro e he
  unfold finalTextEvents at he
  rw [List.mem_filterMap] at he
  obtain ⟨c, _, hc⟩ := he
  rcases hd : c.contentDelta with _ | s
  · rw [hd] at hc; simp at hc
  · rw [hd] at hc
    by_cases hs : s = ""
    · simp [hs] at hc
    · simp [hs] at hc
      subst hc
      rfl

lemma runLoop_abort_cons (env : AgentEnv) (st : AgentState) (chunks fchunks : List StreamChunk)
    (rest : List (List StreamChunk))
    (hfin : (consumeStream chunks).finish = "tool_calls")
    (hscan : (doomScanCalls st.recent
        (finalizeBuffers env.parseJson (consumeStream chunks).buffers)).2 = true) :
    runLoop env st (chunks :: fchunks :: rest) =
      { events := (consumeStream chunks).events ++ announceEvent :: finalTextEvents fchunks
        requests := [{ messages := buildMessages env.systemPrompt st.working,
                       tools := getOpenAITools env.tools },
                     { messages := buildMessages env.systemPrompt st.working
                         ++ [ChatParam.basic Role.user nudgeText], tools := none }]
        working := st.working
        caller := st.caller
        termination := TermReason.loopAborted } := by
  simp only [runLoop]
  simp only [hfin, hscan, if_true]

lemma runLoop_abort_nil (env : AgentEnv) (st : AgentState) (chunks : List StreamChunk)
    (hfin : (consumeStream chunks).finish = "tool_calls")
    (hscan : (doomScanCalls st.recent
        (finalizeBuffers env.parseJson (consumeStream chunks).buffers)).2 = true) :
    runLoop env st [chunks] =
      { events := (consumeStream chunks).events ++ [announceEvent]
        requests := [{ messages := buildMessages env.systemPrompt st.working,
                       tools := getOpenAITools env.tools },
                     { messages := buildMessages env.systemPrompt st.working
                         ++ [ChatParam.basic Role.user nudgeText], tools := none }]
        working := st.working
        caller := st.caller
        termination := TermReason.outOfScript } := by
  simp only [runLoop]
  simp only [hfin, hscan, if_true]

lemma createMessage_assistant_tool_calls (t : Nat) (m c : String) (tcs : List ToolCall) :
    createMessage t { role := Role.assistant, content := c, model := some m,
                      finishRaw := some "tool_calls", toolCalls := some tcs } =
      Except.ok (assistantMsg t m c FinishReason.tool_calls (some tcs)) := rfl

lemma createMessage_assistant_stop (t : Nat) (m c : String) :
    createMessage t { role := Role.assistant, content := c, model := some m,
                      finishRaw := some "stop" } =
      Except.ok (assistantMsg t m c FinishReason.stop none) := rfl

lemma createMessage_assistant_length (t : Nat) (m c : String) :
    createMessage t { role := Role.assistant, content := c, model := some m,
                      finishRaw := some "length" } =
      Except.ok (assistantMsg t m c FinishReason.length none) := rfl

lemma runLoop_toolTurn (env : AgentEnv) (st : AgentState) (chunks : List StreamChunk)
    (rest : List (List StreamChunk))
    (hfin : (consumeStream chunks).finish = "tool_calls")
    (hscan : (doomScanCalls st.recent
        (finalizeBuffers env.parseJson (consumeStream chunks).buffers)).2 = false) :
    runLoop env st (chunks :: rest) =
      (let acc := consumeStream chunks
       let tcs := finalizeBuffers env.parseJson acc.buffers
       let tcMsg := assistantMsg st.t env.model acc.content FinishReason.tool_calls (some tcs)
       let r := runLoop env { t := st.t + 1 + tcs.length, caller := st.caller,
                              working := st.working ++ [tcMsg] ++ toolMsgs env.tools (st.t + 1) tcs,
                              recent := (doomScanCalls st.recent tcs).1 } rest
       { events := acc.events
           ++ ({ etype := EventType.tool_call, content := callingLine tcs,
                 message := some tcMsg } : AgentEvent)
             :: (toolEvents env.tools (st.t + 1) tcs ++ r.events)
         requests := { messages := buildMessages env.systemPrompt st.working,
                       tools := getOpenAITools env.tools } :: r.requests
         working := r.working
         caller := r.caller
         termination := r.termination }) := by
  simp only [runLoop]
  simp only [hfin, hscan, if_true, Bool.false_eq_true, if_false,
    createMessage_assistant_tool_calls, dispatchCalls_eq, List.cons_append,
    List.append_assoc]

lemma runLoop_stop (env : AgentEnv) (st : AgentState) (chunks : List StreamChunk)
    (rest : List (List StreamChunk))
    (hfin : (consumeStream chunks).finish = "stop") :
    runLoop env st (chunks :: rest) =
      { events := (consumeStream chunks).events
        requests := [{ messages := buildMessages env.systemPrompt st.working,
                       tools := getOpenAITools env.tools }]
        working := st.working ++ [assistantMsg st.t env.model (consumeStream chunks).content FinishReason.stop none]
        caller := st.caller
        termination := TermReason.done } := by
  simp only [runLoop, hfin]
  simp [createMessage_assistant_stop]

lemma runLoop_lengthFinish (env : AgentEnv) (st : AgentState) (chunks : List StreamChunk)
    (rest : List (List StreamChunk))
    (hfin : (consumeStream chunks).finish = "length") :
    runLoop env st (chunks :: rest) =
      (let m := assistantMsg st.t env.model (consumeStream chunks).content FinishReason.length none
       let r := runLoop env
         { t := st.t + 1, caller := st.caller, working := st.working ++ [m],
           recent := st.recent } rest
       { events := (consumeStream chunks).events ++ r.events
         requests := { messages := buildMessages env.systemPrompt st.working,
                       tools := getOpenAITools env.tools } :: r.requests
         working := r.working
         caller := r.caller
         termination := r.termination }) := by
  simp only [runLoop, hfin]
  simp [createMessage_assistant_length]

lemma runLoop_unknownFinish (env : AgentEnv) (st : AgentState) (chunks : List StreamChunk)
    (rest : List (List StreamChunk))
    (h1 : (consumeStream chunks).finish ≠ "stop")
    (h2 : (consumeStream chunks).finish ≠ "tool_calls")
    (h3 : (consumeStream chunks).finish ≠ "length") :
    runLoop env st (chunks :: rest) =
      { events := (consumeStream chunks).events
        requests := [{ messages := buildMessages env.systemPrompt st.working,
                       tools := getOpenAITools env.tools }]
        working := st.working
        caller := st.caller
        termination := TermReason.zodError
          ("Invalid enum value: " ++ (consumeStream chunks).finish) } := by
  simp only [runLoop]
  rw [if_neg h2]
  simp only [createMessage, parseFinish_unknown _ h1 h2 h3]

lemma doomStep_fires_iff (recent : List Sig) (sig : Sig) :
    (doomStep recent sig).2 = true ↔ ∃ pre, recent = pre ++ [sig, sig] := by
  unfold doomStep DOOM_LOOP_THRESHOLD
  simp only [Bool.and_eq_true, beq_iff_eq, List.all_eq_true]
  constructor
  · rintro ⟨hlen, hall⟩
    rw [List.length_drop, List.length_append] at hlen
    simp only [List.length_cons, List.length_nil] at hlen
    have hge : 2 ≤ recent.length := by omega
    have hk : recent.length + 1 - 3 = recent.length - 2 := by omega
    have hk2 : recent.length - 2 ≤ recent.length := by omega
    rw [List.length_append] at hall
    simp only [List.length_cons, List.length_nil] at hall
    rw [hk, List.drop_append_of_le_length hk2] at hall
    have hdroplen : (recent.drop (recent.length - 2)).length = 2 := by
      rw [List.length_drop]; omega
    have hdrop : recent.drop (recent.length - 2) = [sig, sig] := by
      have : recent.drop (recent.length - 2) = List.replicate 2 sig := by
        rw [List.eq_replicate_iff]
        refine ⟨hdroplen, ?_⟩
        intro b hb
        have hmem : b ∈ recent.drop (recent.length - 2) ++ [sig] :=
          List.mem_append.mpr (Or.inl hb)
        obtain ⟨h1, h2⟩ := hall b hmem
        exact Prod.ext h1 h2
      simpa using this
    refine ⟨recent.take (recent.length - 2), ?_⟩
    rw [← hdrop, List.take_append_drop]
  · rintro ⟨pre, rfl⟩
    have hlist : (pre ++ [sig, sig]) ++ [sig] = pre ++ [sig, sig, sig] := by
      simp
    rw [hlist]
    have hlen : (pre ++ [sig, sig, sig]).length = pre.length + 3 := by simp
    rw [hlen]
    have hsub : pre.length + 3 - 3 = pre.length := by omega
    rw [hsub, List.drop_left' rfl]
    simp

lemma mapGet_cons (p : Nat × ToolCallBuffer) (l : List (Nat × ToolCallBuffer)) (k : Nat) :
    mapGet (p :: l) k = if p.1 = k then some p.2 else mapGet l k := by
  by_cases h : p.1 = k
  · simp [mapGet, List.find?_cons, h]
  · simp [mapGet, List.find?_cons, h]

lemma mapGet_mapSet_self (m : List (Nat × ToolCallBuffer)) (k : Nat) (v : ToolCallBuffer) :
    mapGet (mapSet m k v) k = some v := by
  induction m with
  | nil => simp [mapSet, mapGet_cons, mapGet]
  | cons p rest ih =>
      by_cases h : p.1 = k
      · simp [mapSet, h, mapGet_cons]
      · simp [mapSet, h, mapGet_cons, ih]

lemma mapGet_mapSet_ne (m : List (Nat × ToolCallBuffer)) (j k : Nat) (v : ToolCallBuffer)
    (hjk : j ≠ k) : mapGet (mapSet m j v) k = mapGet m k := by
  induction m with
  | nil => simp [mapSet, mapGet_cons, mapGet, hjk]
  | cons p rest ih =>
      by_cases h : p.1 = j
      · simp [mapSet, h, mapGet_cons, hjk, mapGet]
      · simp [mapSet, h, mapGet_cons, ih]

lemma updateBuffer_eq (b : ToolCallBuffer) (f : ToolCallDelta) :
    updateBuffer b f =
      { id := match f.idDelta with | some s => if s = "" then b.id else s | none => b.id
        name := match f.nameDelta with | some s => if s = "" then b.name else s | none => b.name
        args := match f.argsDelta with
                | some s => if s = "" then b.args else b.args ++ s
                | none => b.args } := by
  unfold updateBuffer
  rcases f.idDelta with _ | s1 <;> rcases f.nameDelta with _ | s2 <;>
    rcases f.argsDelta with _ | s3 <;> simp only [] <;> split_ifs <;> rfl

lemma stringJoin_foldl (l : List String) :
    ∀ s : String, l.foldl (fun r t => r ++ t) s = s ++ String.join l := by
  induction l with
  | nil => intro s; simp [String.join]
  | cons a rest ih =>
      intro s
      rw [List.foldl_cons, ih]
      have : String.join (a :: rest) = a ++ String.join rest := by
        show (a :: rest).foldl (fun r t => r ++ t) "" = a ++ String.join rest
        rw [List.foldl_cons, ih]
        simp
      rw [this, String.append_assoc]

lemma stringJoin_cons (a : String) (l : List String) :
    String.join (a :: l) = a ++ String.join l := by
  show (a :: l).foldl (fun r t => r ++ t) "" = a ++ String.join l
  rw [List.foldl_cons, stringJoin_foldl]
  simp

lemma foldl_updateBuffer_id (fs : List ToolCallDelta) :
    ∀ b : ToolCallBuffer,
      (fs.foldl updateBuffer b).id =
        (((fs.filterMap ToolCallDelta.idDelta).filter (fun s => !(s == ""))).getLast?).getD b.id := by
  induction fs with
  | nil => intro b; rfl
  | cons f rest ih =>
      intro b
      rw [List.foldl_cons, ih]
      rcases hf : f.idDelta with _ | s
      · simp [List.filterMap_cons, hf, updateBuffer_eq]
      · by_cases hs : s = ""
        · simp [List.filterMap_cons, hf, hs, updateBuffer_eq]
        · simp only [List.filterMap_cons, hf, updateBuffer_eq]
          rw [List.filter_cons_of_pos (by simp [hs])]
          rw [List.getLast?_cons]
          simp [hs]
  
lemma foldl_updateBuffer_name (fs : List ToolCallDelta) :
    ∀ b : ToolCallBuffer,
      (fs.foldl updateBuffer b).name =
        (((fs.filterMap ToolCallDelta.nameDelta).filter (fun s => !(s == ""))).getLast?).getD b.name := by
  induction fs with
  | nil => intro b; rfl
  | cons f rest ih =>
      intro b
      rw [List.foldl_cons, ih]
      rcases hf : f.nameDelta with _ | s
      · simp [List.filterMap_cons, hf, updateBuffer_eq]
      · by_cases hs : s = ""
        · simp [List.filterMap_cons, hf, hs, updateBuffer_eq]
        · simp only [List.filterMap_cons, hf, updateBuffer_eq]
          rw [List.filter_cons_of_pos (by simp [hs])]
          rw [List.getLast?_cons]
          simp [hs]

lemma foldl_updateBuffer_args (fs : List ToolCallDelta) :
    ∀ b : ToolCallBuffer,
      (fs.foldl updateBuffer b).args =
        b.args ++ String.join (fs.filterMap ToolCallDelta.argsDelta) := by
  induction fs with
  | nil => intro b; simp [String.join]
  | cons f rest ih =>
      intro b
      rw [List.foldl_cons, ih]
      rcases hf : f.argsDelta with _ | s
      · simp [List.filterMap_cons, hf, updateBuffer_eq]
      · by_cases hs : s = ""
        · simp [List.filterMap_cons, hf, hs, updateBuffer_eq, stringJoin_cons]
        · simp [List.filterMap_cons, hf, hs, updateBuffer_eq, stringJoin_cons,
            String.append_assoc]

lemma foldl_applyDelta_get_some (ds : List ToolCallDelta) :
    ∀ (m : List (Nat × ToolCallBuffer)) (k : Nat) (b : ToolCallBuffer),
      mapGet m k = some b →
      mapGet (ds.foldl applyDelta m) k
        = some ((ds.filter (fun d => d.index == k)).foldl updateBuffer b) := by
  induction ds with
  | nil => intro m k b h; simpa using h
  | cons d rest ih =>
      intro m k b h
      rw [List.foldl_cons]
      by_cases hd : d.index = k
      · subst hd
        have hget : mapGet (applyDelta m d) d.index = some (updateBuffer b d) := by
          unfold applyDelta
          rw [mapGet_mapSet_self, h]
          rfl
        rw [ih (applyDelta m d) d.index (updateBuffer b d) hget]
        rw [List.filter_cons_of_pos (by simp)]
        rw [List.foldl_cons]
      · have hget : mapGet (applyDelta m d) k = mapGet m k := by
          unfold applyDelta
          exact mapGet_mapSet_ne _ _ _ _ hd
        rw [ih (applyDelta m d) k b (hget.trans h)]
        rw [List.filter_cons_of_neg (by simp [hd])]

lemma foldl_applyDelta_get_none (ds : List ToolCallDelta) :
    ∀ (m : List (Nat × ToolCallBuffer)) (k : Nat),
      mapGet m k = none →
      mapGet (ds.foldl applyDelta m) k
        = if (ds.filter (fun d => d.index == k)).isEmpty then none
          else some ((ds.filter (fun d => d.index == k)).foldl updateBuffer ⟨"", "", ""⟩) := by
  induction ds with
  | nil => intro m k h; simpa using h
  | cons d rest ih =>
      intro m k h
      rw [List.foldl_cons]
      by_cases hd : d.index = k
      · subst hd
        have hget : mapGet (applyDelta m d) d.index
            = some (updateBuffer ⟨"", "", ""⟩ d) := by
          unfold applyDelta
          rw [mapGet_mapSet_self, h]
          rfl
        rw [foldl_applyDelta_get_some rest (applyDelta m d) d.index _ hget]
        rw [List.filter_cons_of_pos (by simp)]
        simp [List.foldl_cons]
      · have hget : mapGet (applyDelta m d) k = mapGet m k := by
          unfold applyDelta
          exact mapGet_mapSet_ne _ _ _ _ hd
        rw [ih (applyDelta m d) k (hget.trans h)]
        rw [List.filter_cons_of_neg (by simp [hd])]

lemma consumeChunk_buffers (acc : StreamAcc) (c : StreamChunk) :
    (consumeChunk acc c).buffers = c.toolDeltas.foldl applyDelta acc.buffers := by
  unfold consumeChunk
  rcases hc : c.contentDelta with _ | s <;> rcases hf : c.finishDelta with _ | f
  · rfl
  · by_cases hf0 : f = "" <;> simp [hf0]
  · by_cases hs : s = "" <;> simp [hs]
  · by_cases hs : s = "" <;> by_cases hf0 : f = "" <;> simp [hs, hf0]

lemma foldl_consumeChunk_buffers (chunks : List StreamChunk) :
    ∀ acc : StreamAcc,
      (chunks.foldl consumeChunk acc).buffers
        = ((chunks.map (fun c => c.toolDeltas)).flatten).foldl applyDelta acc.buffers := by
  induction chunks with
  | nil => intro acc; rfl
  | cons c cs ih =>
      intro acc
      rw [List.foldl_cons, ih, List.map_cons, List.flatten_cons, List.foldl_append,
        consumeChunk_buffers]

lemma consumeStream_buffers (chunks : List StreamChunk) :
    (consumeStream chunks).buffers
      = ((chunks.map (fun c => c.toolDeltas)).flatten).foldl applyDelta [] := by
  rw [consumeStream, foldl_consumeChunk_buffers]

lemma mapSet_keys (m : List (Nat × ToolCallBuffer)) (k : Nat) (v : ToolCallBuffer) :
    (mapSet m k v).map Prod.fst =
      if k ∈ m.map Prod.fst then m.map Prod.fst else m.map Prod.fst ++ [k] := by
  induction m with
  | nil => simp [mapSet]
  | cons p rest ih =>
      by_cases h : p.1 = k
      · simp [mapSet, h]
      · by_cases hk : k ∈ rest.map Prod.fst
        · simp [mapSet, h, ih, hk, Ne.symm h]
        · simp [mapSet, h, ih, hk, Ne.symm h]

lemma foldl_applyDelta_keys (ds : List ToolCallDelta) :
    ∀ m : List (Nat × ToolCallBuffer),
      (ds.foldl applyDelta m).map Prod.fst
        = firstOccAcc (m.map Prod.fst) (ds.map (fun d => d.index)) := by
  induction ds with
  | nil => intro m; rfl
  | cons d rest ih =>
      intro m
      rw [List.foldl_cons, ih, List.map_cons]
      have step : firstOccAcc (m.map Prod.fst) (d.index :: rest.map (fun d => d.index))
          = firstOccAcc (if d.index ∈ m.map Prod.fst then m.map Prod.fst
                         else m.map Prod.fst ++ [d.index]) (rest.map (fun d => d.index)) := by
        simp [firstOccAcc, List.foldl_cons]
      rw [step]
      have keys : (applyDelta m d).map Prod.fst
          = if d.index ∈ m.map Prod.fst then m.map Prod.fst
            else m.map Prod.fst ++ [d.index] := by
        unfold applyDelta
        exact mapSet_keys m d.index _
      rw [keys]

lemma sortByKey_sorted_id (l : List (Nat × ToolCallBuffer))
    (h : l.Chain' (fun p q => p.1 ≤ q.1)) : sortByKey l = l := by
  induction l with
  | nil => rfl
  | cons p rest ih =>
      rw [sortByKey, ih (List.Chain'.tail h)]
      cases rest with
      | nil => rfl
      | cons q rest' =>
          have hpq : p.1 ≤ q.1 := (List.chain'_cons.mp h).1
          simp [insertByKey, hpq]

lemma runLoop_frame (env : AgentEnv) :
    ∀ (script : List (List StreamChunk)) (st : AgentState),
      (runLoop env st script).caller = st.caller
      ∧ ∃ suf, (runLoop env st script).working = st.working ++ suf := by
  intro script
  induction script with
  | nil => intro st; exact ⟨rfl, [], by simp [runLoop]⟩
  | cons chunks rest ih =>
      intro st
      by_cases hfin : (consumeStream chunks).finish = "tool_calls"
      · by_cases hscan : (doomScanCalls st.recent
            (finalizeBuffers env.parseJson (consumeStream chunks).buffers)).2 = true
        · cases rest with
          | nil =>
              rw [runLoop_abort_nil env st chunks hfin hscan]
              exact ⟨rfl, [], by simp⟩
          | cons fchunks rest' =>
              rw [runLoop_abort_cons env st chunks fchunks rest' hfin hscan]
              exact ⟨rfl, [], by simp⟩
        · have hscan' : (doomScanCalls st.recent
              (finalizeBuffers env.parseJson (consumeStream chunks).buffers)).2 = false := by
            simpa using hscan
          rw [runLoop_toolTurn env st chunks rest hfin hscan']
          dsimp only
          obtain ⟨hc, suf, hw⟩ := ih _
          refine ⟨hc, ?_⟩
          refine ⟨[assistantMsg st.t env.model (consumeStream chunks).content
              FinishReason.tool_calls
              (some (finalizeBuffers env.parseJson (consumeStream chunks).buffers))]
            ++ toolMsgs env.tools (st.t + 1)
                (finalizeBuffers env.parseJson (consumeStream chunks).buffers)
            ++ suf, ?_⟩
          rw [hw]
          dsimp only
          simp [List.append_assoc]
      · by_cases hstop : (consumeStream chunks).finish = "stop"
        · rw [runLoop_stop env st chunks rest hstop]
          exact ⟨rfl,
            [assistantMsg st.t env.model (consumeStream chunks).content FinishReason.stop none],
            rfl⟩
        · by_cases hlen : (consumeStream chunks).finish = "length"
          · rw [runLoop_lengthFinish env st chunks rest hlen]
            dsimp only
            obtain ⟨hc, suf, hw⟩ := ih _
            refine ⟨hc, ?_⟩
            refine ⟨[assistantMsg st.t env.model (consumeStream chunks).content
                FinishReason.length none] ++ suf, ?_⟩
            rw [hw]
            dsimp only
            simp [List.append_assoc]
          · rw [runLoop_unknownFinish env st chunks rest hstop hfin hlen]
            exact ⟨rfl, [], by simp⟩

/-- C1: during one streamResponse invocation the Loop Guard declares a loop
at a logged call exactly when that call is the third of a run of three
consecutive identical (name, serialized arguments) pairs — never after only
two, never later — and once a loop is declared on a turn's call, the
remaining finalized calls of that turn are not executed: the run yields no
tool_result event and appends nothing for that turn. -/
theorem c1_loop_declared_at_third :
    (∀ (recent : List Sig) (sig : Sig),
        (doomStep recent sig).2 = true ↔ ∃ pre, recent = pre ++ [sig, sig])
    ∧ (∀ (env : AgentEnv) (st : AgentState) (chunks : List StreamChunk)
          (rest : List (List StreamChunk)),
        (consumeStream chunks).finish = "tool_calls" →
        (doomScanCalls st.recent
            (finalizeBuffers env.parseJson (consumeStream chunks).buffers)).2 = true →
        (∀ e ∈ (runLoop env st (chunks :: rest)).events, e.etype ≠ EventType.tool_result)
        ∧ (runLoop env st (chunks :: rest)).working = st.working) := by
  constructor
  · exact doomStep_fires_iff
  · intro env st chunks rest hfin hscan
    cases rest with
    | nil =>
        rw [runLoop_abort_nil env st chunks hfin hscan]
        refine ⟨?_, rfl⟩
        intro e he
        dsimp only at he
        rcases List.mem_append.mp he with h | h
        · rw [consumeStream_events_text chunks e h]; simp
        · simp only [List.mem_singleton] at h
          subst h
          simp [announceEvent]
    | cons fchunks rest' =>
        rw [runLoop_abort_cons env st chunks fchunks rest' hfin hscan]
        refine ⟨?_, rfl⟩
        intro e he
        dsimp only at he
        rcases List.mem_append.mp he with h | h
        · rw [consumeStream_events_text chunks e h]; simp
        · rcases List.mem_cons.mp h with h | h
          · subst h; simp [announceEvent]
          · rw [finalTextEvents_text fchunks e h]; simp

/-- Closed witness for C1 at a turn carrying three identical calls. -/
theorem c1_loop_declared_at_third_witness :
    (consumeStream loopTurnW).finish = "tool_calls"
    ∧ (doomScanCalls stW.recent
        (finalizeBuffers envW.parseJson (consumeStream loopTurnW).buffers)).2 = true
    ∧ ((∀ e ∈ (runLoop envW stW (loopTurnW :: [finalTurnW])).events,
          e.etype ≠ EventType.tool_result)
       ∧ (runLoop envW stW (loopTurnW :: [finalTurnW])).working = stW.working) :=
  ⟨rfl, by decide,
    c1_loop_declared_at_third.2 envW stW loopTurnW [finalTurnW] rfl (by decide)⟩

/-- C2 counterexample: a turn that finishes with tool_calls but on which
the Loop Guard declares a loop emits no tool_call event at all and appends
no assistant Message to the working history, contrary to the claim's
"including the case where the Loop Guard declares a loop". -/
theorem c2_counterexample :
    (streamResponse envW [] [loopTurnW, finalTurnW]).events.filter
        (fun e => e.etype == EventType.tool_call) = []
    ∧ (streamResponse envW [] [loopTurnW, finalTurnW]).working = [] :=
  ⟨rfl, rfl⟩

/-- C2 amended: on a tool_calls turn where the Loop Guard declares no loop,
the controller creates the assistant Message carrying all finalized
ToolCalls, emits exactly one tool_call event naming them (the turn's prior
events are all text and the dispatch events are all tool_result), and the
dispatch starts from the working history with that Message already
appended — so append and event happen before any tool of the turn runs.
When the Guard declares a loop, neither happens (see the counterexample). -/
theorem c2_append_and_event_before_dispatch (env : AgentEnv) (st : AgentState)
    (chunks : List StreamChunk) (rest : List (List StreamChunk))
    (hfin : (consumeStream chunks).finish = "tool_calls")
    (hscan : (doomScanCalls st.recent
        (finalizeBuffers env.parseJson (consumeStream chunks).buffers)).2 = false) :
    let acc := consumeStream chunks
    let tcs := finalizeBuffers env.parseJson acc.buffers
    let tcMsg := assistantMsg st.t env.model acc.content FinishReason.tool_calls (some tcs)
    let devs := toolEvents env.tools (st.t + 1) tcs
    (createMessage st.t
        { role := Role.assistant, content := acc.content, model := some env.model,
          finishRaw := some "tool_calls", toolCalls := some tcs } = Except.ok tcMsg)
    ∧ tcMsg.toolCalls = some tcs
    ∧ (∃ tailEvents,
        (runLoop env st (chunks :: rest)).events
          = acc.events
            ++ ({ etype := EventType.tool_call, content := callingLine tcs,
                  message := some tcMsg } : AgentEvent) :: (devs ++ tailEvents))
    ∧ (∀ e ∈ acc.events, e.etype = EventType.text)
    ∧ (∀ e ∈ devs, e.etype = EventType.tool_result)
    ∧ devs.length = tcs.length
    ∧ dispatchCalls env.tools (st.t + 1) (st.working ++ [tcMsg]) tcs
        = Except.ok (st.t + 1 + tcs.length,
            st.working ++ [tcMsg] ++ toolMsgs env.tools (st.t + 1) tcs, devs) := by
  dsimp only
  refine ⟨createMessage_assistant_tool_calls st.t env.model (consumeStream chunks).content
      (finalizeBuffers env.parseJson (consumeStream chunks).buffers),
    rfl, ?_,
    consumeStream_events_text chunks,
    fun e he => toolEvents_types env.tools
      (finalizeBuffers env.parseJson (consumeStream chunks).buffers) (st.t + 1) e he,
    toolEvents_length env.tools
      (finalizeBuffers env.parseJson (consumeStream chunks).buffers) (st.t + 1), ?_⟩
  · refine ⟨(runLoop env
        { t := st.t + 1 + (finalizeBuffers env.parseJson (consumeStream chunks).buffers).length,
          caller := st.caller,
          working := st.working
            ++ [assistantMsg st.t env.model (consumeStream chunks).content
                  FinishReason.tool_calls
                  (some (finalizeBuffers env.parseJson (consumeStream chunks).buffers))]
            ++ toolMsgs env.tools (st.t + 1)
                 (finalizeBuffers env.parseJson (consumeStream chunks).buffers),
          recent := (doomScanCalls st.recent
            (finalizeBuffers env.parseJson (consumeStream chunks).buffers)).1 } rest).events, ?_⟩
    rw [runLoop_toolTurn env st chunks rest hfin hscan]
  · have h := dispatchCalls_eq env.tools
      (finalizeBuffers env.parseJson (consumeStream chunks).buffers) (st.t + 1)
      (st.working
        ++ [assistantMsg st.t env.model (consumeStream chunks).content FinishReason.tool_calls
              (some (finalizeBuffers env.parseJson (consumeStream chunks).buffers))])
    rw [h]

/-- Closed witness for C2 at a single-call turn that triggers no loop. -/
theorem c2_append_and_event_before_dispatch_witness :
    (consumeStream oneCallTurnW).finish = "tool_calls"
    ∧ (doomScanCalls stW.recent
        (finalizeBuffers envW.parseJson (consumeStream oneCallTurnW).buffers)).2 = false
    ∧ (let acc := consumeStream oneCallTurnW
       let tcs := finalizeBuffers envW.parseJson acc.buffers
       let tcMsg := assistantMsg stW.t envW.model acc.content FinishReason.tool_calls (some tcs)
       let devs := toolEvents envW.tools (stW.t + 1) tcs
       (createMessage stW.t
           { role := Role.assistant, content := acc.content, model := some envW.model,
             finishRaw := some "tool_calls", toolCalls := some tcs } = Except.ok tcMsg)
       ∧ tcMsg.toolCalls = some tcs
       ∧ (∃ tailEvents,
           (runLoop envW stW (oneCallTurnW :: [stopTurnW])).events
             = acc.events
               ++ ({ etype := EventType.tool_call, content := callingLine tcs,
                     message := some tcMsg } : AgentEvent) :: (devs ++ tailEvents))
       ∧ (∀ e ∈ acc.events, e.etype = EventType.text)
       ∧ (∀ e ∈ devs, e.etype = EventType.tool_result)
       ∧ devs.length = tcs.length
       ∧ dispatchCalls envW.tools (stW.t + 1) (stW.working ++ [tcMsg]) tcs
           = Except.ok (stW.t + 1 + tcs.length,
               stW.working ++ [tcMsg] ++ toolMsgs envW.tools (stW.t + 1) tcs, devs)) :=
  ⟨rfl, by decide,
    c2_append_and_event_before_dispatch envW stW oneCallTurnW [stopTurnW] rfl (by decide)⟩

/-- C3 counterexample: two fragments for position 0 deliver non-empty ids
"a" then "b"; the finalized buffer's id is "b" (the last non-empty
fragment), not the first non-empty fragment "a" stated by the claim. -/
theorem c3_counterexample :
    mapGet (c3DeltasW.foldl applyDelta []) 0 = some { id := "b", name := "", args := "" }
    ∧ specFirstNonEmpty (c3DeltasW.map (fun d => d.idDelta)) = "a"
    ∧ ("b" : String) ≠ "a" :=
  ⟨rfl, rfl, by decide⟩

/-- C3 amended: for every sequence of fragments delivered for one position
index during a turn, the finalized buffer's identifier equals the LAST
non-empty identifier fragment received (not the first), its name equals the
LAST non-empty name fragment received, and its argument string is the
concatenation of all argument fragments in arrival order. -/
theorem c3_last_fragment_wins (chunks : List StreamChunk) (k : Nat)
    (hne : (((chunks.map (fun c => c.toolDeltas)).flatten).filter
        (fun d => d.index == k)).isEmpty = false) :
    ∃ b, mapGet (consumeStream chunks).buffers k = some b
      ∧ b.id = lastNonEmpty ((((chunks.map (fun c => c.toolDeltas)).flatten).filter
          (fun d => d.index == k)).filterMap ToolCallDelta.idDelta)
      ∧ b.name = lastNonEmpty ((((chunks.map (fun c => c.toolDeltas)).flatten).filter
          (fun d => d.index == k)).filterMap ToolCallDelta.nameDelta)
      ∧ b.args = String.join ((((chunks.map (fun c => c.toolDeltas)).flatten).filter
          (fun d => d.index == k)).filterMap ToolCallDelta.argsDelta) := by
  rw [consumeStream_buffers]
  rw [foldl_applyDelta_get_none ((chunks.map (fun c => c.toolDeltas)).flatten) [] k rfl]
  rw [hne]
  rw [if_neg (by simp : ¬(false = true))]
  refine ⟨_, rfl, ?_, ?_, ?_⟩
  · rw [foldl_updateBuffer_id]
    rfl
  · rw [foldl_updateBuffer_name]
    rfl
  · rw [foldl_updateBuffer_args]
    dsimp only
    rw [String.empty_append]

/-- Closed witness for C3 at the two-id-fragments input. -/
theorem c3_last_fragment_wins_witness :
    ((([({ toolDeltas := c3DeltasW } : StreamChunk)].map
        (fun c => c.toolDeltas)).flatten).filter (fun d => d.index == 0)).isEmpty = false
    ∧ (∃ b, mapGet (consumeStream [({ toolDeltas := c3DeltasW } : StreamChunk)]).buffers 0
          = some b
        ∧ b.id = lastNonEmpty (((([({ toolDeltas := c3DeltasW } : StreamChunk)].map
            (fun c => c.toolDeltas)).flatten).filter
            (fun d => d.index == 0)).filterMap ToolCallDelta.idDelta)
        ∧ b.name = lastNonEmpty (((([({ toolDeltas := c3DeltasW } : StreamChunk)].map
            (fun c => c.toolDeltas)).flatten).filter
            (fun d => d.index == 0)).filterMap ToolCallDelta.nameDelta)
        ∧ b.args = String.join (((([({ toolDeltas := c3DeltasW } : StreamChunk)].map
            (fun c => c.toolDeltas)).flatten).filter
            (fun d => d.index == 0)).filterMap ToolCallDelta.argsDelta)) :=
  ⟨by decide, c3_last_fragment_wins [({ toolDeltas := c3DeltasW } : StreamChunk)] 0 (by decide)⟩

/-- C4 counterexample: fragments arriving with index 1 before index 0 are
drained in first-appearance order, producing names ["b", "a"], while the
claim's ascending-index drain would produce ["a", "b"]. -/
theorem c4_counterexample :
    (finalizeBuffers noParse (consumeStream c4ChunksW).buffers).map ToolCall.name = ["b", "a"]
    ∧ (finalizeBuffersAscending noParse (consumeStream c4ChunksW).buffers).map ToolCall.name
        = ["a", "b"]
    ∧ (["b", "a"] : List String) ≠ ["a", "b"] :=
  ⟨rfl, rfl, by decide⟩

/-- C4 amended: for every turn finishing with tool_calls, the in-progress
buffers are drained in the order in which their position indices FIRST
APPEARED in the delta stream (the JS Map's insertion order), each buffer
yielding the ToolCall at its own position; this coincides with ascending
position-index order exactly when the indices first appear in ascending
order (buffer keys pairwise sorted). -/
theorem c4_drain_in_first_appearance_order (chunks : List StreamChunk)
    (parse : String → Option Json) :
    ((consumeStream chunks).buffers).map Prod.fst
      = firstOccAcc [] (((chunks.map (fun c => c.toolDeltas)).flatten).map (fun d => d.index))
    ∧ (finalizeBuffers parse (consumeStream chunks).buffers).map ToolCall.id
        = ((consumeStream chunks).buffers).map (fun p => p.2.id)
    ∧ (List.Chain' (fun p q => p.1 ≤ q.1) ((consumeStream chunks).buffers) →
        finalizeBuffers parse (consumeStream chunks).buffers
          = finalizeBuffersAscending parse (consumeStream chunks).buffers) := by
  refine ⟨?_, ?_, ?_⟩
  · rw [consumeStream_buffers]
    exact foldl_applyDelta_keys ((chunks.map (fun c => c.toolDeltas)).flatten) []
  · simp [finalizeBuffers, finalizeOne]
  · intro hchain
    unfold finalizeBuffersAscending
    rw [sortByKey_sorted_id _ hchain]

/-- Closed witness for C4 at a turn whose only index is 0. -/
theorem c4_drain_in_first_appearance_order_witness :
    List.Chain' (fun p q => p.1 ≤ q.1) ((consumeStream oneCallTurnW).buffers)
    ∧ ((consumeStream oneCallTurnW).buffers).map Prod.fst
        = firstOccAcc []
            (((oneCallTurnW.map (fun c => c.toolDeltas)).flatten).map (fun d => d.index))
    ∧ finalizeBuffers noParse (consumeStream oneCallTurnW).buffers
        = finalizeBuffersAscending noParse (consumeStream oneCallTurnW).buffers := by
  have hchain : List.Chain' (fun p q => p.1 ≤ q.1) ((consumeStream oneCallTurnW).buffers) := by
    rw [show (consumeStream oneCallTurnW).buffers = [(0, ⟨"id0", "t", ""⟩)] from rfl]
    exact List.chain'_singleton _
  exact ⟨hchain, (c4_drain_in_first_appearance_order oneCallTurnW noParse).1,
    (c4_drain_in_first_appearance_order oneCallTurnW noParse).2.2 hchain⟩

/-- C5: executing a ToolCall whose name is not a key of the registry
returns the structured error string naming the unknown tool, without
raising (executeTool is a total function in the model because the source
catches every exception) and without invoking any capability: the result is
the same for every registry lacking the name, hence independent of every
registered execute operation. -/
theorem c5_unknown_tool (tools : List ToolCap) (tc : ToolCall)
    (h : tc.name ∉ tools.map ToolCap.name) :
    executeTool tools tc
      = Json.stringify (Json.obj [("error", Json.str ("Unknown tool: " ++ tc.name))])
    ∧ ∀ tools2 : List ToolCap, tc.name ∉ tools2.map ToolCap.name →
        executeTool tools2 tc = executeTool tools tc := by
  have hlook : ∀ ts : List ToolCap, tc.name ∉ ts.map ToolCap.name →
      lookupTool ts tc.name = none := by
    intro ts hts
    unfold lookupTool
    rw [List.find?_eq_none]
    intro x hx
    simp only [beq_iff_eq]
    intro heq
    exact hts (List.mem_map.mpr ⟨x, List.mem_reverse.mp hx, heq⟩)
  constructor
  · unfold executeTool
    rw [hlook tools h]
  · intro tools2 h2
    unfold executeTool
    rw [hlook tools h, hlook tools2 h2]

/-- Closed witness for C5 at a registry lacking the called name. -/
theorem c5_unknown_tool_witness :
    tcGhostW.name ∉ ([throwToolW] : List ToolCap).map ToolCap.name
    ∧ (executeTool [throwToolW] tcGhostW
        = Json.stringify (Json.obj [("error", Json.str ("Unknown tool: " ++ tcGhostW.name))])
      ∧ ∀ tools2 : List ToolCap, tcGhostW.name ∉ tools2.map ToolCap.name →
          executeTool tools2 tcGhostW = executeTool [throwToolW] tcGhostW) :=
  ⟨by decide, c5_unknown_tool [throwToolW] tcGhostW (by decide)⟩

/-- C6: when a registered capability's execute rejects, or does not settle
within the TOOL_TIMEOUT_MS deadline (losing the race to the timeout
rejection), executeTool returns the structured error string carrying the
offending tool's name instead of propagating; and the dispatch loop always
processes every call of the turn in order, yielding one tool_result event
per call, so the controller proceeds to the next ToolCall after a failed
one. -/
theorem c6_failure_contained (tools : List ToolCap) (tc : ToolCall) (cap : ToolCap)
    (hfound : lookupTool tools tc.name = some cap) :
    (∀ m, cap.execute tc.arguments = ExecOutcome.throwsErr m →
        executeTool tools tc
          = Json.stringify (Json.obj [("error", Json.str m), ("tool", Json.str tc.name)]))
    ∧ (cap.execute tc.arguments = ExecOutcome.hangs →
        executeTool tools tc
          = Json.stringify (Json.obj [("error", Json.str "Tool execution timeout"),
              ("tool", Json.str tc.name)]))
    ∧ (∀ (t : Nat) (wh : List Message) (tcs : List ToolCall),
        dispatchCalls tools t wh tcs
          = Except.ok (t + tcs.length, wh ++ toolMsgs tools t tcs, toolEvents tools t tcs)
        ∧ (toolEvents tools t tcs).length = tcs.length
        ∧ ∀ e ∈ toolEvents tools t tcs, e.etype = EventType.tool_result) := by
  refine ⟨?_, ?_, ?_⟩
  · intro m hm
    unfold executeTool
    rw [hfound]
    dsimp only
    rw [hm]
  · intro hm
    unfold executeTool
    rw [hfound]
    dsimp only
    rw [hm]
  · intro t wh tcs
    exact ⟨dispatchCalls_eq tools tcs t wh, toolEvents_length tools tcs t,
      fun e he => toolEvents_types tools tcs t e he⟩

/-- Closed witness for C6 at a rejecting capability. -/
theorem c6_failure_contained_witness :
    lookupTool [throwToolW, hangToolW] tcBoomW.name = some throwToolW
    ∧ ((∀ m, throwToolW.execute tcBoomW.arguments = ExecOutcome.throwsErr m →
          executeTool [throwToolW, hangToolW] tcBoomW
            = Json.stringify (Json.obj [("error", Json.str m), ("tool", Json.str tcBoomW.name)]))
      ∧ (throwToolW.execute tcBoomW.arguments = ExecOutcome.hangs →
          executeTool [throwToolW, hangToolW] tcBoomW
            = Json.stringify (Json.obj [("error", Json.str "Tool execution timeout"),
                ("tool", Json.str tcBoomW.name)]))
      ∧ (∀ (t : Nat) (wh : List Message) (tcs : List ToolCall),
          dispatchCalls [throwToolW, hangToolW] t wh tcs
            = Except.ok (t + tcs.length, wh ++ toolMsgs [throwToolW, hangToolW] t tcs,
                toolEvents [throwToolW, hangToolW] t tcs)
          ∧ (toolEvents [throwToolW, hangToolW] t tcs).length = tcs.length
          ∧ ∀ e ∈ toolEvents [throwToolW, hangToolW] t tcs,
              e.etype = EventType.tool_result)) :=
  ⟨rfl, c6_failure_contained [throwToolW, hangToolW] tcBoomW throwToolW rfl⟩

/-- C7: a finalized buffer whose argument string fails to parse still
yields its ToolCall at the same position, with the argument mapping
replaced by the object holding exactly one diagnostic field _parseError
whose value is the raw unparsed string; no buffer is discarded. -/
theorem c7_parse_error_preserved (parse : String → Option Json)
    (bufs : List (Nat × ToolCallBuffer)) (i k : Nat) (b : ToolCallBuffer)
    (hib : bufs[i]? = some (k, b)) (hfail : parse b.args = none) :
    (finalizeBuffers parse bufs)[i]?
      = some { id := b.id, name := b.name,
               arguments := Json.obj [("_parseError", Json.str b.args)] }
    ∧ (finalizeBuffers parse bufs).length = bufs.length := by
  constructor
  · unfold finalizeBuffers
    rw [List.getElem?_map, hib]
    simp [finalizeOne, hfail]
  · simp [finalizeBuffers]

/-- Closed witness for C7 at a buffer holding an unparseable string. -/
theorem c7_parse_error_preserved_witness :
    ([(0, bufW)] : List (Nat × ToolCallBuffer))[0]? = some (0, bufW)
    ∧ noParse bufW.args = none
    ∧ ((finalizeBuffers noParse [(0, bufW)])[0]?
        = some { id := bufW.id, name := bufW.name,
                 arguments := Json.obj [("_parseError", Json.str bufW.args)] }
      ∧ (finalizeBuffers noParse [(0, bufW)]).length = ([(0, bufW)] : List (Nat × ToolCallBuffer)).length) :=
  ⟨rfl, rfl, c7_parse_error_preserved noParse [(0, bufW)] 0 0 bufW rfl rfl⟩

/-- C8 counterexample: on a turn finishing with the unknown value
content_filter the invocation does not reach the clean Done return — the
message validation raises (finishReason fails the enum), and the modelled
termination is the propagated ZodError, not Done. -/
theorem c8_counterexample :
    (streamResponse envW [] [unknownTurnW]).termination
        = TermReason.zodError "Invalid enum value: content_filter"
    ∧ (streamResponse envW [] [unknownTurnW]).termination ≠ TermReason.done :=
  ⟨rfl, by decide⟩

/-- C8 amended: for every turn whose finish signal is neither stop,
tool_calls nor length, the invocation ends the event sequence by raising
the message-validation error (the unknown finish value is rejected by the
Message schema's finish-reason enum) — executing no tools, issuing no
further completion request (only the turn's own request was made), leaving
the working history unchanged, and not retrying; it does not reach the
clean Done return. -/
theorem c8_unknown_finish_raises (env : AgentEnv) (st : AgentState)
    (chunks : List StreamChunk) (rest : List (List StreamChunk))
    (h1 : (consumeStream chunks).finish ≠ "stop")
    (h2 : (consumeStream chunks).finish ≠ "tool_calls")
    (h3 : (consumeStream chunks).finish ≠ "length") :
    runLoop env st (chunks :: rest) =
      { events := (consumeStream chunks).events
        requests := [{ messages := buildMessages env.systemPrompt st.working,
                       tools := getOpenAITools env.tools }]
        working := st.working
        caller := st.caller
        termination := TermReason.zodError
          ("Invalid enum value: " ++ (consumeStream chunks).finish) }
    ∧ (∀ e ∈ (consumeStream chunks).events, e.etype = EventType.text)
    ∧ TermReason.zodError ("Invalid enum value: " ++ (consumeStream chunks).finish)
        ≠ TermReason.done :=
  ⟨runLoop_unknownFinish env st chunks rest h1 h2 h3,
    consumeStream_events_text chunks, by simp⟩

/-- Closed witness for C8 at the content_filter turn. -/
theorem c8_unknown_finish_raises_witness :
    (consumeStream unknownTurnW).finish ≠ "stop"
    ∧ (consumeStream unknownTurnW).finish ≠ "tool_calls"
    ∧ (consumeStream unknownTurnW).finish ≠ "length"
    ∧ (runLoop envW stW [unknownTurnW] =
        { events := (consumeStream unknownTurnW).events
          requests := [{ messages := buildMessages envW.systemPrompt stW.working,
                         tools := getOpenAITools envW.tools }]
          working := stW.working
          caller := stW.caller
          termination := TermReason.zodError
            ("Invalid enum value: " ++ (consumeStream unknownTurnW).finish) }
      ∧ (∀ e ∈ (consumeStream unknownTurnW).events, e.etype = EventType.text)
      ∧ TermReason.zodError ("Invalid enum value: " ++ (consumeStream unknownTurnW).finish)
          ≠ TermReason.done) :=
  ⟨by decide, by decide, by decide,
    c8_unknown_finish_raises envW stW unknownTurnW [] (by decide) (by decide) (by decide)⟩

/-- C9: whenever the Loop Guard declares a loop, the controller emits the
announcement text event, issues exactly one further completion request
carrying no tool schemas and the current history plus the appended user
nudge, streams only the text of that response, and terminates — no
tool_call or tool_result event follows the announcement and nothing more is
appended, regardless of what the final scripted response contains. -/
theorem c9_loop_abort_behavior (env : AgentEnv) (st : AgentState)
    (chunks fchunks : List StreamChunk) (rest : List (List StreamChunk))
    (hfin : (consumeStream chunks).finish = "tool_calls")
    (hscan : (doomScanCalls st.recent
        (finalizeBuffers env.parseJson (consumeStream chunks).buffers)).2 = true) :
    runLoop env st (chunks :: fchunks :: rest) =
      { events := (consumeStream chunks).events ++ announceEvent :: finalTextEvents fchunks
        requests := [{ messages := buildMessages env.systemPrompt st.working,
                       tools := getOpenAITools env.tools },
                     { messages := buildMessages env.systemPrompt st.working
                         ++ [ChatParam.basic Role.user nudgeText], tools := none }]
        working := st.working
        caller := st.caller
        termination := TermReason.loopAborted }
    ∧ announceEvent.etype = EventType.text
    ∧ (∀ e ∈ finalTextEvents fchunks, e.etype = EventType.text) :=
  ⟨runLoop_abort_cons env st chunks fchunks rest hfin hscan, rfl,
    finalTextEvents_text fchunks⟩

/-- Closed witness for C9 at the three-identical-calls turn. -/
theorem c9_loop_abort_behavior_witness :
    (consumeStream loopTurnW).finish = "tool_calls"
    ∧ (doomScanCalls stW.recent
        (finalizeBuffers envW.parseJson (consumeStream loopTurnW).buffers)).2 = true
    ∧ (runLoop envW stW (loopTurnW :: finalTurnW :: []) =
        { events := (consumeStream loopTurnW).events
            ++ announceEvent :: finalTextEvents finalTurnW
          requests := [{ messages := buildMessages envW.systemPrompt stW.working,
                         tools := getOpenAITools envW.tools },
                       { messages := buildMessages envW.systemPrompt stW.working
                           ++ [ChatParam.basic Role.user nudgeText], tools := none }]
          working := stW.working
          caller := stW.caller
          termination := TermReason.loopAborted }
      ∧ announceEvent.etype = EventType.text
      ∧ (∀ e ∈ finalTextEvents finalTurnW, e.etype = EventType.text)) :=
  ⟨rfl, by decide,
    c9_loop_abort_behavior envW stW loopTurnW finalTurnW [] rfl (by decide)⟩

/-- C10: a streamResponse invocation leaves the caller-supplied history
value untouched (the model threads it through every branch unchanged,
mirroring that the source never mutates the history argument), and the
final working history is the caller's history extended by the appended
suffix — all appends go to the private copy made at entry. -/
theorem c10_caller_history_unchanged (env : AgentEnv) (history : List Message)
    (script : List (List StreamChunk)) :
    (streamResponse env history script).caller = history
    ∧ ∃ suffix, (streamResponse env history script).working = history ++ suffix := by
  unfold streamResponse
  exact runLoop_frame env script _
